import Mathlib

/-
Verification development for the synt repository (src/synt/utils/db.py and
src/synt/config.py): a shallow embedding of the database and cache layer,
with theorems settling the frozen claims about it.

Modelling conventions:
  - The redis cache is an association list from key strings to values.
    Values are the three shapes the program ever stores: an integer written
    with SET (redis stores its decimal string; reading it back through
    int(...) is the identity, so we keep the integer), a pickled blob, and
    a sorted set with integer scores (all zset writes are zincrby-by-1).
  - Python integers in this code are always non-negative (row counts,
    limits, offsets, counters), so they are modelled as Nat; Python floor
    division by 2 on non-negatives is Nat division.
  - Fallible Python code (exceptions) returns Except PyError.
  - The sqlite corpus is two lists of row texts, one per label, in rowid
    order; SELECT ... LIMIT l OFFSET o is take l after drop o.
  - The tokenizer sanitize_text (synt/utils/text.py, an external black box
    per the spec) is a function parameter.
  - nltk BigramAssocMeasures.chi_sq (external library) is embedded from its
    published source over Rat; Rat division by zero yields 0 where Python
    would raise ZeroDivisionError (denominators are positive in the states
    the pipeline reaches).
-/

namespace Synt

/-- Shapes of pickled objects the program stores: the two-label conditional
frequency distribution (association list label → (word → count)), the word
score dictionary, and the best-words list of (word, score) pairs. -/
inductive PyObjShape : Type
  | cfd    : List (String × List (String × Nat)) → PyObjShape
  | scores : List (String × Rat) → PyObjShape
  | best   : List (String × Rat) → PyObjShape
  deriving DecidableEq

/-- Values a cache key can hold: an integer written with SET, a pickled
blob, or a sorted set mapping members to integer scores. -/
inductive RVal : Type
  | num  : Nat → RVal
  | blob : PyObjShape → RVal
  | zset : List (String × Nat) → RVal
  deriving DecidableEq

/-- Python exceptions this code can raise. -/
inductive PyError : Type
  | typeError
  | nameError
  | unpicklingError
  | assertionError (msg : String)
  | responseError
  deriving DecidableEq

/-- The redis keyspace: key → value, insertion ordered. -/
def Cache : Type := List (String × RVal)

/-- Association lookup, first match (keys are kept duplicate free by
dictInsert, so first match is the only match). -/
def findD {α : Type} : List (String × α) → String → Option α
  | [], _ => none
  | (k, v) :: rest, w => if k = w then some v else findD rest w

/-- Dictionary write: overwrite in place if the key exists, append
otherwise (python dict / redis SET semantics). -/
def dictInsert {α : Type} : List (String × α) → String → α → List (String × α)
  | [], w, v => [(w, v)]
  | (k, x) :: rest, w, v =>
    if k = w then (k, v) :: rest else (k, x) :: dictInsert rest w v

/-- Keys of the cache, mirroring self.r.keys(). -/
def keysC (cache : Cache) : List String := cache.map Prod.fst

/-- One row of samples per label, in rowid order: the sqlite item table
restricted to a sentiment. -/
structure Corpus : Type where
  pos : List String
  neg : List String

/-- RedisManager.pickle_store: self.r.set(name, pickle.dumps(data)). -/
def pickle_store (name : String) (data : PyObjShape) (cache : Cache) : Cache :=
  dictInsert cache name (RVal.blob data)

/-- RedisManager.pickle_load: pickle.loads(self.r.get(name)). A missing key
makes r.get return None and pickle.loads(None) raises TypeError; a key
holding a non-pickled value would fail to unpickle (never reached: the
program only ever unpickles keys it wrote with pickle_store). -/
def pickle_load (name : String) (cache : Cache) : Except PyError PyObjShape :=
  match findD cache name with
  | none => Except.error PyError.typeError
  | some (RVal.blob o) => Except.ok o
  | some _ => Except.error PyError.unpicklingError

/-- get_sample_limit (db.py lines 204-233): if the "limit" key is cached,
return it; otherwise count the rows of each label, keep the smaller count,
store it under "limit" and return it. The source writes the min as
"if neg_count > pos_count: limit = pos_count else: limit = neg_count". -/
def get_sample_limit (c : Corpus) (cache : Cache) : Except PyError (Nat × Cache) :=
  match findD cache "limit" with
  | some (RVal.num n) => Except.ok (n, cache)
  | some _ => Except.error PyError.typeError
  | none =>
    let pos_count := c.pos.length
    let neg_count := c.neg.length
    let limit := if neg_count > pos_count then pos_count else neg_count
    Except.ok (limit, dictInsert cache "limit" (RVal.num limit))

/-- get_samples (db.py lines 235-262): clamp the limit up to 2 and down to
get_sample_limit(), round an odd limit down to even, halve it and halve the
offset, then take that many rows of each label after the offset and return
the positive slice followed by the negative slice as (text, label) pairs.
The comparison against get_sample_limit() evaluates it once; when the clamp
fires the assignment evaluates it a second time (by then it is cached). -/
def get_samples (c : Corpus) (cache : Cache) (limit offset : Nat) :
    Except PyError (List (String × String) × Cache) :=
  let limit1 := if limit < 2 then 2 else limit
  match get_sample_limit c cache with
  | Except.error e => Except.error e
  | Except.ok (sl, cache1) =>
    match (if limit1 > sl then get_sample_limit c cache1 else Except.ok (limit1, cache1)) with
    | Except.error e => Except.error e
    | Except.ok (limit2, cache2) =>
      let limit3 := if limit2 % 2 ≠ 0 then limit2 - 1 else limit2
      let half := limit3 / 2
      let off := offset / 2
      let neg_samples := ((c.neg.drop off).take half).map (fun t => (t, "negative"))
      let pos_samples := ((c.pos.drop off).take half).map (fun t => (t, "positive"))
      Except.ok (pos_samples ++ neg_samples, cache2)

/-- The per-label row budget get_samples ends up with, as a function of the
requested limit and the balanced sample limit: clamp up to 2, clamp down to
sl, round down to even, halve. Used to state the corrected claim C2. -/
def clamped_half (limit sl : Nat) : Nat :=
  let l1 := if limit < 2 then 2 else limit
  let l2 := if l1 > sl then sl else l1
  (if l2 % 2 ≠ 0 then l2 - 1 else l2) / 2

/-- A redis pipeline command the feature consumer queues: zincrby(key,
member) with the default increment of 1, or SET of an integer. -/
inductive Cmd : Type
  | zincrby (key member : String)
  | setNum  (key : String) (v : Nat)
  deriving DecidableEq

/-- Apply one pipelined command to the cache. The Bool is true when redis
answers the command with an error: zincrby on a key holding a non-zset
value is WRONGTYPE and leaves the key alone. -/
def applyCmd (cache : Cache) : Cmd → Cache × Bool
  | Cmd.zincrby key member =>
    match findD cache key with
    | none => (dictInsert cache key (RVal.zset [(member, 1)]), false)
    | some (RVal.zset l) =>
      (dictInsert cache key
        (RVal.zset (dictInsert l member ((findD l member).getD 0 + 1))), false)
    | some _ => (cache, true)
  | Cmd.setNum key v => (dictInsert cache key (RVal.num v), false)

/-- Fold step of pipeline.execute(): apply the command, remember whether
any command so far has failed. -/
def pipeStep (p : Cache × Bool) (cmd : Cmd) : Cache × Bool :=
  let q := applyCmd p.1 cmd
  (q.1, p.2 || q.2)

/-- pipeline.execute(): the server applies every queued command in order
(failed commands change nothing), then redis-py raises a ResponseError if
any command failed. -/
def execPipeline (cache : Cache) (cmds : List Cmd) : Except PyError Cache :=
  let res := cmds.foldl pipeStep (cache, false)
  if res.2 then Except.error PyError.responseError else Except.ok res.1

/-- label.startswith("pos"), written over the character list so that it
evaluates by kernel reduction (String.startsWith itself is implemented with
well-founded recursion, which does not). -/
def startswith_pos (label : String) : Bool := label.data.take 3 == ['p', 'o', 's']

/-- redis_feature_consumer (db.py lines 28-57), parametric in the external
tokenizer sanitize_text. For each (text, label) sample whose token list is
non-empty it counts the sample toward the positive or negative processed
total (label.startswith("pos")) and queues one zincrby per DISTINCT token
of the sample into the label_wordcounts sorted set; it then queues plain
SETs of both processed totals — overwriting whatever the counters held —
and executes the pipeline. Python iterates set(tokens) in unspecified
order; the embedding fixes an order, which reaches the same final zsets
because the deduplicated members are distinct. -/
def redis_feature_consumer (tok : String → List String)
    (samples : List (String × String)) (cache : Cache) : Except PyError Cache :=
  let acc := samples.foldl
    (fun (a : Nat × Nat × List Cmd) s =>
      let count_label := s.2 ++ "_wordcounts"
      let tokens := tok s.1
      if tokens.isEmpty then a
      else
        let counters := if startswith_pos s.2 then (a.1, a.2.1 + 1) else (a.1 + 1, a.2.1)
        (counters.1, counters.2,
          a.2.2 ++ (tokens.dedup.map (fun w => Cmd.zincrby count_label w))))
    (0, 0, [])
  execPipeline cache
    (acc.2.2 ++ [Cmd.setNum "negative_processed" acc.1, Cmd.setNum "positive_processed" acc.2.1])

/-- Score of a member in the sorted set stored at key, 0 when absent. -/
def zscore (cache : Cache) (key member : String) : Nat :=
  match findD cache key with
  | some (RVal.zset l) => (findD l member).getD 0
  | _ => 0

/-- True when the key is absent or holds a sorted set, so that zincrby on
it cannot fail. -/
def zset_ok (cache : Cache) (key : String) : Bool :=
  match findD cache key with
  | none => true
  | some (RVal.zset _) => true
  | some _ => false

/-- nltk BigramAssocMeasures.chi_sq (external dependency, nltk 2.x
nltk/metrics/association.py): completes the contingency table from the
marginals chi_sq(n_ii, (n_ix, n_xi), n_xx) and returns n_xx * phi_sq.
Rational division by zero yields 0 where Python would raise
ZeroDivisionError; in the states the pipeline reaches the denominators are
positive. -/
def chi_sq (n_ii n_ix n_xi n_xx : Rat) : Rat :=
  let n_oi := n_xi - n_ii
  let n_io := n_ix - n_ii
  let n_oo := n_xx - n_ii - n_oi - n_io
  n_xx * ((n_ii * n_oo - n_io * n_oi) ^ 2 /
    ((n_ii + n_io) * (n_ii + n_oi) * (n_io + n_oo) * (n_oi + n_oo)))

/-- FreqDist lookup: the count of a word, 0 when unseen (nltk FreqDist
returns 0 for unseen samples). -/
def fdFreq (dist : List (String × Nat)) (w : String) : Nat :=
  (findD dist w).getD 0

/-- FreqDist.N(): the total of the counts in the distribution. -/
def fdN (dist : List (String × Nat)) : Nat := (dist.map Prod.snd).sum

/-- ConditionalFreqDist lookup: the distribution of a label, empty when
the label is not a condition (nltk materializes an empty FreqDist). -/
def condLookup (fd : List (String × List (String × Nat))) (label : String) :
    List (String × Nat) := (findD fd label).getD []

/-- The body of the double loop of store_feature_scores (db.py lines
132-139) for one (word, freq) pair of the label being iterated: pos_score
+ neg_score, each chi_sq receiving the pair (freq, that label total) over
the grand total — freq being the frequency in the ITERATED label,
whichever label the chi-square is scoring. -/
def pair_score (fd : List (String × List (String × Nat))) (w : String) (f : Nat) : Rat :=
  let pos_word_count := fdN (condLookup fd "positive")
  let neg_word_count := fdN (condLookup fd "negative")
  let total_word_count := pos_word_count + neg_word_count
  chi_sq (fdFreq (condLookup fd "positive") w) f pos_word_count total_word_count
    + chi_sq (fdFreq (condLookup fd "negative") w) f neg_word_count total_word_count

/-- Insertion step of an insertion sort over the string order, written
structurally so that it evaluates by kernel reduction. -/
def insert_sorted (s : String) : List String → List String
  | [] => [s]
  | x :: rest => if x < s then x :: insert_sorted s rest else s :: x :: rest

/-- Ascending insertion sort of a list of strings (the keys of a python
dict are distinct, so tie order is immaterial). -/
def sorted_keys : List String → List String
  | [] => []
  | x :: rest => insert_sorted x (sorted_keys rest)

/-- ConditionalFreqDist.conditions() in the nltk 2.x this repository uses:
sorted(self.keys()) — the labels in ASCENDING string order, so "negative"
comes before "positive" whatever order the distribution was built in. -/
def conditions (fd : List (String × List (String × Nat))) : List String :=
  sorted_keys (fd.map Prod.fst)

/-- The word_scores dictionary store_feature_scores builds: for each label
in conditions() — sorted, hence negative first and positive LAST — and
each (word, freq) of fd[label], write pair_score into the dict,
overwriting any score the word received from an earlier label. -/
def word_scores_of (fd : List (String × List (String × Nat))) : List (String × Rat) :=
  (conditions fd).foldl
    (fun ws label =>
      (condLookup fd label).foldl (fun ws2 p => dictInsert ws2 p.1 (pair_score fd p.1 p.2)) ws)
    []

/-- The per-word score as claim C4 words it (NOT what the code computes):
for each label, chi-square of the observed count of the word in that label
with the pair (the frequency of the word in THAT SAME label, the total of
that label) over the grand total, the two per-label scores summed. Defined
from the words of the claim, for comparison with word_scores_of. -/
def claimed_word_score (posD negD : List (String × Nat)) (w : String) : Rat :=
  let pos_word_count := fdN posD
  let neg_word_count := fdN negD
  let total_word_count := pos_word_count + neg_word_count
  chi_sq (fdFreq posD w) (fdFreq posD w) pos_word_count total_word_count
    + chi_sq (fdFreq negD w) (fdFreq negD w) neg_word_count total_word_count

/-- store_feature_scores (db.py lines 116-141): loads the pickled
label_fd. When the key is absent, pickle.loads(None) raises TypeError,
which the except TypeError clause catches and merely PRINTS — execution
falls through with the local label_word_freqdist unbound, so the next
line raises UnboundLocalError, modelled as nameError. Otherwise the
word_scores dict is computed and pickled under word_scores. An unpickled
object of an unexpected shape would fail on subscripting (typeError);
never reached in pipeline states. -/
def store_feature_scores (cache : Cache) : Except PyError Cache :=
  match pickle_load "label_fd" cache with
  | Except.error PyError.typeError => Except.error PyError.nameError
  | Except.error e => Except.error e
  | Except.ok (PyObjShape.cfd fd) =>
    Except.ok (pickle_store "word_scores" (PyObjShape.scores (word_scores_of fd)) cache)
  | Except.ok _ => Except.error PyError.typeError

/-- store_best_features (db.py lines 170-180): no-op when n is 0 ("if not
n: return"); loads the pickled word_scores (an absent key raises TypeError
from pickle.loads, uncaught here), asserts the dict is truthy
(AssertionError on an empty dict), sorts the items by score descending —
python sorted with reverse=True is stable on ties, as is mergeSort —
truncates to the first n and pickles the list under best_words. -/
def store_best_features (n : Nat) (cache : Cache) : Except PyError Cache :=
  if n = 0 then Except.ok cache
  else
    match pickle_load "word_scores" cache with
    | Except.error e => Except.error e
    | Except.ok (PyObjShape.scores word_scores) =>
      if word_scores.isEmpty then
        Except.error (PyError.assertionError "Word scores need to exist.")
      else
        let best := (word_scores.mergeSort (fun a b => decide (b.2 ≤ a.2))).take n
        Except.ok (pickle_store "best_words" (PyObjShape.best best) cache)
    | Except.ok _ => Except.error PyError.typeError

/-- get_best_words (db.py lines 182-201): returns None when the
best_words key is absent. When the key IS present, the source calls the
module function pickle.load with the KEY STRING ("best_words") instead of
loading the stored value through the manager; cPickle.load requires a file
object and raises TypeError, so the words-only postprocessing (the tmp
dict) and the scores=True return are unreachable. -/
def get_best_words (scores : Bool) (cache : Cache) : Except PyError (Option PyObjShape) :=
  if (findD cache "best_words").isSome then Except.error PyError.typeError
  else Except.ok none

/-- The producer closure inside store_feature_counts (db.py lines
107-112): clip the chunk length to the total sample count, return no rows
when nothing is left, otherwise fetch through get_samples. -/
def chunk_producer (c : Corpus) (samples offset length : Nat) (cache : Cache) :
    Except PyError (List (String × String) × Cache) :=
  let length2 := if offset + length > samples then samples - offset else length
  if length2 < 1 then Except.ok ([], cache)
  else get_samples c cache length2 offset

/-- Modelled from the spec: batch_job lives in synt/utils/processing.py,
which is not under src. Spec section 4.2: split [0, totalSamples) into
contiguous chunks of chunkSize, call producer(offset, length) per chunk,
skip chunks whose produced sequence is empty, hand every other chunk to
the consumer. Workers run concurrently in the spec; the consumer acts only
through single atomic cache commands, so the embedding runs the chunks
sequentially. The fuel argument counts the chunks still to dispatch. -/
def run_chunks (tok : String → List String) (c : Corpus) (samples chunksize : Nat) :
    Nat → Nat → Cache → Except PyError Cache
  | 0, _, cache => Except.ok cache
  | fuel + 1, offset, cache =>
    match chunk_producer c samples offset chunksize cache with
    | Except.error e => Except.error e
    | Except.ok (chunk, cache1) =>
      if chunk.isEmpty then run_chunks tok c samples chunksize fuel (offset + chunksize) cache1
      else
        match redis_feature_consumer tok chunk cache1 with
        | Except.error e => Except.error e
        | Except.ok cache2 => run_chunks tok c samples chunksize fuel (offset + chunksize) cache2

/-- store_feature_counts (db.py lines 90-114): the compute-once guard — if
the positive_wordcounts key already exists the call returns at once,
touching nothing; otherwise it hands the producer / redis_feature_consumer
pair to batch_job over the requested sample count. -/
def store_feature_counts (tok : String → List String) (c : Corpus)
    (samples chunksize : Nat) (cache : Cache) : Except PyError Cache :=
  if "positive_wordcounts" ∈ keysC cache then Except.ok cache
  else run_chunks tok c samples chunksize (samples / chunksize + 1) 0 cache

theorem findD_dictInsert_self {α : Type} (m : List (String × α)) (k : String) (v : α) :
    findD (dictInsert m k v) k = some v := by
  induction m with
  | nil => simp [dictInsert, findD]
  | cons p rest ih =>
    by_cases h : p.1 = k
    · simp [dictInsert, h, findD]
    · simpa [dictInsert, h, findD] using ih

theorem findD_dictInsert_ne {α : Type} (m : List (String × α)) (k w : String) (v : α)
    (hne : k ≠ w) : findD (dictInsert m k v) w = findD m w := by
  induction m with
  | nil => simp [dictInsert, findD, hne]
  | cons p rest ih =>
    by_cases h : p.1 = k
    · simp [dictInsert, h, findD, hne]
    · by_cases h2 : p.1 = w
      · simp [dictInsert, h, findD, h2, Ne.symm hne]
      · simpa [dictInsert, h, findD, h2] using ih

theorem get_sample_limit_of_not_cached (c : Corpus) (cache : Cache)
    (h : findD cache "limit" = none) :
    get_sample_limit c cache =
      Except.ok (min c.pos.length c.neg.length,
        dictInsert cache "limit" (RVal.num (min c.pos.length c.neg.length))) := by
  have hmin : (if c.neg.length > c.pos.length then c.pos.length else c.neg.length)
      = min c.pos.length c.neg.length := by
    split <;> omega
  simp only [get_sample_limit, h, hmin]

theorem get_sample_limit_of_cached (c : Corpus) (cache : Cache) (n : Nat)
    (h : findD cache "limit" = some (RVal.num n)) :
    get_sample_limit c cache = Except.ok (n, cache) := by
  simp only [get_sample_limit, h]

theorem get_samples_of_not_cached (c : Corpus) (cache : Cache) (limit offset : Nat)
    (h : findD cache "limit" = none) :
    get_samples c cache limit offset =
      Except.ok (
        (((c.pos.drop (offset / 2)).take
            (clamped_half limit (min c.pos.length c.neg.length))).map (fun t => (t, "positive")))
        ++ (((c.neg.drop (offset / 2)).take
            (clamped_half limit (min c.pos.length c.neg.length))).map (fun t => (t, "negative"))),
        dictInsert cache "limit" (RVal.num (min c.pos.length c.neg.length))) := by
  have h1 := get_sample_limit_of_not_cached c cache h
  have h2 := get_sample_limit_of_cached c
      (dictInsert cache "limit" (RVal.num (min c.pos.length c.neg.length)))
      (min c.pos.length c.neg.length)
      (findD_dictInsert_self cache "limit" (RVal.num (min c.pos.length c.neg.length)))
  by_cases hcl : (min c.pos.length c.neg.length) < (if limit < 2 then 2 else limit)
  · simp only [get_samples, clamped_half, h1, gt_iff_lt, if_pos hcl, h2]
  · simp only [get_samples, clamped_half, h1, gt_iff_lt, if_neg hcl, h2]

theorem two_mul_clamped_half_le (limit sl : Nat) :
    2 * clamped_half limit sl ≤ (if limit < 2 then 2 else limit) := by
  simp only [clamped_half]
  generalize (if limit < 2 then 2 else limit) = l1
  have h2 : (if l1 > sl then sl else l1) ≤ l1 := by split <;> omega
  generalize hl2 : (if l1 > sl then sl else l1) = l2 at h2 ⊢
  split <;> omega

theorem length_filter_label (l : List String) (lab lab2 : String) :
    (((l.map (fun t => (t, lab))).filter (fun s => s.2 == lab2)).length)
      = if lab = lab2 then l.length else 0 := by
  induction l with
  | nil => simp
  | cons a tl ih =>
    by_cases hl : lab = lab2
    · subst hl; simpa [List.filter_cons] using ih
    · simp [List.filter_cons, hl, ih]

/-- C1: for a corpus with P positive and N negative rows and no cached
limit, get_sample_limit returns min(P, N) and stores it under the "limit"
key; every later call in the same cache lifetime — with any corpus, showing
the corpus is not rescanned — returns the same integer and leaves the
cache untouched. -/
theorem claim_C1_sample_limit (c : Corpus) (cache : Cache)
    (h : findD cache "limit" = none) :
    get_sample_limit c cache =
      Except.ok (min c.pos.length c.neg.length,
        dictInsert cache "limit" (RVal.num (min c.pos.length c.neg.length))) ∧
    ∀ c2 : Corpus,
      get_sample_limit c2 (dictInsert cache "limit" (RVal.num (min c.pos.length c.neg.length))) =
        Except.ok (min c.pos.length c.neg.length,
          dictInsert cache "limit" (RVal.num (min c.pos.length c.neg.length))) := by
  refine ⟨get_sample_limit_of_not_cached c cache h, fun c2 => ?_⟩
  exact get_sample_limit_of_cached c2 _ _
    (findD_dictInsert_self cache "limit" (RVal.num (min c.pos.length c.neg.length)))

/-- Witness for C1 at a concrete corpus (1 positive, 2 negative rows) and
an empty cache. -/
theorem claim_C1_sample_limit_witness :
    get_sample_limit ⟨["a"], ["b", "c"]⟩ ([] : Cache) =
      Except.ok (1, [("limit", RVal.num 1)]) ∧
    get_sample_limit ⟨["d", "e", "f"], ["g"]⟩ [("limit", RVal.num 1)] =
      Except.ok (1, [("limit", RVal.num 1)]) :=
  ⟨(claim_C1_sample_limit ⟨["a"], ["b", "c"]⟩ ([] : Cache) rfl).1,
   (claim_C1_sample_limit ⟨["a"], ["b", "c"]⟩ ([] : Cache) rfl).2 ⟨["d", "e", "f"], ["g"]⟩⟩

/-- C7 counterexample: with zero positive rows (and one negative row) and
an empty cache, get_sample_limit does NOT fail: it returns the value 0 and
caches it, contradicting the claim that it fails with a PreconditionError
rather than returning a value. -/
theorem claim_C7_counterexample :
    get_sample_limit ⟨[], ["x"]⟩ ([] : Cache) =
      Except.ok (0, [("limit", RVal.num 0)]) := by
  rfl

/-- C7 as amended: when either label has zero rows (and no limit is
cached), get_sample_limit returns min(P, N) = 0 — a value, not an error —
and caches the 0. -/
theorem claim_C7_amended (c : Corpus) (cache : Cache)
    (h : findD cache "limit" = none)
    (h0 : c.pos.length = 0 ∨ c.neg.length = 0) :
    get_sample_limit c cache = Except.ok (0, dictInsert cache "limit" (RVal.num 0)) := by
  have hc := get_sample_limit_of_not_cached c cache h
  have hm : min c.pos.length c.neg.length = 0 := by omega
  rwa [hm] at hc

/-- Witness for the amended C7 at a corpus with one positive and zero
negative rows. -/
theorem claim_C7_amended_witness :
    get_sample_limit ⟨["y"], []⟩ ([] : Cache) =
      Except.ok (0, [("limit", RVal.num 0)]) :=
  claim_C7_amended ⟨["y"], []⟩ ([] : Cache) rfl (Or.inr rfl)

/-- C2 counterexample: the claim fails in both halves. With 2 rows per
label, get_samples with limit 1 is clamped up to 2 and returns 2 samples,
more than the requested limit. With 6 positive and 4 negative rows, limit 4
and offset 8, the negative label is exhausted and the batch is 2 positive
versus 0 negative samples — a split differing by 2. -/
theorem claim_C2_counterexample :
    (get_samples ⟨["a", "b"], ["c", "d"]⟩ ([] : Cache) 1 0 =
      Except.ok ([("a", "positive"), ("c", "negative")], [("limit", RVal.num 2)])) ∧
    ¬ (([("a", "positive"), ("c", "negative")] : List (String × String)).length ≤ 1) ∧
    (get_samples ⟨["p1", "p2", "p3", "p4", "p5", "p6"], ["n1", "n2", "n3", "n4"]⟩
        ([] : Cache) 4 8 =
      Except.ok ([("p5", "positive"), ("p6", "positive")], [("limit", RVal.num 4)])) ∧
    (([("p5", "positive"), ("p6", "positive")] : List (String × String)).filter
        (fun s => s.2 == "positive")).length = 2 ∧
    (([("p5", "positive"), ("p6", "positive")] : List (String × String)).filter
        (fun s => s.2 == "negative")).length = 0 := by
  refine ⟨by rfl, by decide, by rfl, by rfl, by rfl⟩

/-- C2 as amended: with no cached limit, get_samples returns at most
max(limit, 2) samples — at most limit once limit is at least 2 — and
whenever the halved offset plus the per-label budget clamped_half fits
inside both labels (offset/2 + budget ≤ min(P, N)), the returned positive
and negative sample counts are equal, so the split differs by at most 1.
The original claim fails for limit = 1 (clamped up to 2, so 2 samples can
come back) and for offsets past the smaller label (the split can differ by
more than 1). -/
theorem claim_C2_amended (c : Corpus) (cache : Cache) (limit offset : Nat)
    (h : findD cache "limit" = none) :
    ∃ out : List (String × String), ∃ cache2 : Cache,
      get_samples c cache limit offset = Except.ok (out, cache2) ∧
      out.length ≤ max limit 2 ∧
      (2 ≤ limit → out.length ≤ limit) ∧
      (offset / 2 + clamped_half limit (min c.pos.length c.neg.length)
          ≤ min c.pos.length c.neg.length →
        (out.filter (fun s => s.2 == "positive")).length
          = (out.filter (fun s => s.2 == "negative")).length) := by
  have hch := get_samples_of_not_cached c cache limit offset h
  refine ⟨_, _, hch, ?_, ?_, ?_⟩
  · have hb := two_mul_clamped_half_le limit (min c.pos.length c.neg.length)
    simp only [List.length_append, List.length_map, List.length_take, List.length_drop]
    by_cases hl : limit < 2
    · rw [if_pos hl] at hb; omega
    · rw [if_neg hl] at hb; omega
  · intro h2
    have hb := two_mul_clamped_half_le limit (min c.pos.length c.neg.length)
    rw [if_neg (by omega : ¬ limit < 2)] at hb
    simp only [List.length_append, List.length_map, List.length_take, List.length_drop]
    omega
  · intro hfit
    rw [List.filter_append, List.filter_append]
    simp only [List.length_append, length_filter_label]
    have hp : (List.take (clamped_half limit (min c.pos.length c.neg.length))
        (List.drop (offset / 2) c.pos)).length
        = clamped_half limit (min c.pos.length c.neg.length) := by
      simp only [List.length_take, List.length_drop]; omega
    have hn : (List.take (clamped_half limit (min c.pos.length c.neg.length))
        (List.drop (offset / 2) c.neg)).length
        = clamped_half limit (min c.pos.length c.neg.length) := by
      simp only [List.length_take, List.length_drop]; omega
    simp [hp, hn]

/-- Witness for the amended C2 at a concrete corpus (2 rows per label),
limit 4, offset 0, empty cache. -/
theorem claim_C2_amended_witness :
    ∃ out : List (String × String), ∃ cache2 : Cache,
      get_samples ⟨["a", "b"], ["c", "d"]⟩ ([] : Cache) 4 0 = Except.ok (out, cache2) ∧
      out.length ≤ max 4 2 ∧
      (2 ≤ 4 → out.length ≤ 4) ∧
      (0 / 2 + clamped_half 4 (min 2 2) ≤ min 2 2 →
        (out.filter (fun s => s.2 == "positive")).length
          = (out.filter (fun s => s.2 == "negative")).length) :=
  claim_C2_amended ⟨["a", "b"], ["c", "d"]⟩ ([] : Cache) 4 0 rfl

theorem zscore_dictInsert_ne (cache : Cache) (k2 key m : String) (v : RVal)
    (hne : k2 ≠ key) :
    zscore (dictInsert cache k2 v) key m = zscore cache key m := by
  unfold zscore
  rw [findD_dictInsert_ne cache k2 key v hne]

theorem pipeStep_zincrby (cache : Cache) (b : Bool) (key m : String)
    (hok : zset_ok cache key = true) :
    ∃ cache2 : Cache,
      pipeStep (cache, b) (Cmd.zincrby key m) = (cache2, b) ∧
      zset_ok cache2 key = true ∧
      (∀ w, zscore cache2 key w = zscore cache key w + (if m = w then 1 else 0)) ∧
      (∀ k2 w, k2 ≠ key → zscore cache2 k2 w = zscore cache k2 w) := by
  cases hfd : findD cache key with
  | none =>
    refine ⟨dictInsert cache key (RVal.zset [(m, 1)]), ?_, ?_, ?_, ?_⟩
    · simp [pipeStep, applyCmd, hfd]
    · simp [zset_ok, findD_dictInsert_self]
    · intro w
      simp only [zscore, findD_dictInsert_self, hfd, findD]
      split <;> simp
    · intro k2 w hne
      exact zscore_dictInsert_ne cache key k2 w (RVal.zset [(m, 1)]) (Ne.symm hne)
  | some v =>
    cases v with
    | num n => simp [zset_ok, hfd] at hok
    | blob o => simp [zset_ok, hfd] at hok
    | zset l =>
      refine ⟨dictInsert cache key
          (RVal.zset (dictInsert l m ((findD l m).getD 0 + 1))), ?_, ?_, ?_, ?_⟩
      · simp [pipeStep, applyCmd, hfd]
      · simp [zset_ok, findD_dictInsert_self]
      · intro w
        by_cases hw : m = w
        · subst hw
          simp [zscore, findD_dictInsert_self, hfd]
        · simp [zscore, findD_dictInsert_self, hfd, findD_dictInsert_ne l m w _ hw, hw]
      · intro k2 w hne
        exact zscore_dictInsert_ne cache key k2 w _ (Ne.symm hne)

theorem foldl_zincrbys (key : String) (ms : List String) :
    ∀ (cache : Cache) (b : Bool), zset_ok cache key = true →
    ∃ cache2 : Cache,
      (ms.map (fun w => Cmd.zincrby key w)).foldl pipeStep (cache, b) = (cache2, b) ∧
      zset_ok cache2 key = true ∧
      (∀ w, zscore cache2 key w = zscore cache key w + ms.count w) ∧
      (∀ k2 w, k2 ≠ key → zscore cache2 k2 w = zscore cache k2 w) := by
  induction ms with
  | nil =>
    intro cache b hok
    exact ⟨cache, rfl, hok, by simp, fun _ _ _ => rfl⟩
  | cons m rest ih =>
    intro cache b hok
    obtain ⟨c1, hstep, hok1, hz1, ho1⟩ := pipeStep_zincrby cache b key m hok
    obtain ⟨c2, hfold, hok2, hz2, ho2⟩ := ih c1 b hok1
    refine ⟨c2, ?_, hok2, ?_, ?_⟩
    · simpa [List.map_cons, List.foldl_cons, hstep] using hfold
    · intro w
      have hc : (m :: rest).count w = rest.count w + (if m = w then 1 else 0) := by
        simp [List.count_cons]
      rw [hz2 w, hz1 w, hc]
      omega
    · intro k2 w hne
      rw [ho2 k2 w hne, ho1 k2 w hne]

/-- C10: for a sample processed by the feature counter, each distinct word
of the sample increments that word count in the label_wordcounts sorted set
by exactly 1, no matter how many times it repeats inside the sample — the
consumer iterates set(tokens). Stated for a single-sample batch on any
starting cache whose wordcounts key is absent or a sorted set. -/
theorem claim_C10_set_semantics (tok : String → List String) (cache : Cache)
    (text label w : String)
    (hlab : label = "positive" ∨ label = "negative")
    (hok : zset_ok cache (label ++ "_wordcounts") = true)
    (hw : w ∈ tok text) :
    ∃ cache2 : Cache,
      redis_feature_consumer tok [(text, label)] cache = Except.ok cache2 ∧
      zscore cache2 (label ++ "_wordcounts") w
        = zscore cache (label ++ "_wordcounts") w + 1 := by
  have hnil : tok text ≠ [] := List.ne_nil_of_mem hw
  have hempty : (tok text).isEmpty = false := by
    cases htt : tok text with
    | nil => exact absurd htt hnil
    | cons a l => rfl
  have hcnt : ((tok text).dedup).count w = 1 := by
    rw [List.count_dedup]
    simp [hw]
  rcases hlab with hlab | hlab <;> subst hlab
  · obtain ⟨cA, hA, hokA, hzA, hoA⟩ :=
      foldl_zincrbys "positive_wordcounts" (tok text).dedup cache false hok
    refine ⟨dictInsert (dictInsert cA "negative_processed" (RVal.num 0))
        "positive_processed" (RVal.num 1), ?_, ?_⟩
    · simp only [redis_feature_consumer, List.foldl_cons, List.foldl_nil, hempty,
        Bool.false_eq_true, if_false, List.nil_append]
      rw [show startswith_pos "positive" = true from rfl]
      simp only [if_true, execPipeline, List.foldl_append]
      rw [show ("positive" ++ "_wordcounts") = "positive_wordcounts" from rfl, hA]
      simp [pipeStep, applyCmd]
    · have h1 := zscore_dictInsert_ne (dictInsert cA "negative_processed" (RVal.num 0))
        "positive_processed" "positive_wordcounts" w (RVal.num 1) (by decide)
      have h2 := zscore_dictInsert_ne cA "negative_processed"
        "positive_wordcounts" w (RVal.num 0) (by decide)
      exact h1.trans (h2.trans (by rw [hzA w, hcnt]; try rfl))
  · obtain ⟨cA, hA, hokA, hzA, hoA⟩ :=
      foldl_zincrbys "negative_wordcounts" (tok text).dedup cache false hok
    refine ⟨dictInsert (dictInsert cA "negative_processed" (RVal.num 1))
        "positive_processed" (RVal.num 0), ?_, ?_⟩
    · simp only [redis_feature_consumer, List.foldl_cons, List.foldl_nil, hempty,
        Bool.false_eq_true, if_false, List.nil_append]
      rw [show startswith_pos "negative" = false from rfl]
      simp only [Bool.false_eq_true, if_false, execPipeline, List.foldl_append]
      rw [show ("negative" ++ "_wordcounts") = "negative_wordcounts" from rfl, hA]
      simp [pipeStep, applyCmd]
    · have h1 := zscore_dictInsert_ne (dictInsert cA "negative_processed" (RVal.num 1))
        "positive_processed" "negative_wordcounts" w (RVal.num 0) (by decide)
      have h2 := zscore_dictInsert_ne cA "negative_processed"
        "negative_wordcounts" w (RVal.num 1) (by decide)
      exact h1.trans (h2.trans (by rw [hzA w, hcnt]; try rfl))

/-- Witness for C10: a sample whose token list repeats "good"; its count
still rises only from 0 to 1. -/
theorem claim_C10_set_semantics_witness :
    ∃ cache2 : Cache,
      redis_feature_consumer (fun _ => ["good", "bad", "good"])
          [("t", "positive")] ([] : Cache) = Except.ok cache2 ∧
      zscore cache2 ("positive" ++ "_wordcounts") "good"
        = zscore ([] : Cache) ("positive" ++ "_wordcounts") "good" + 1 :=
  claim_C10_set_semantics (fun _ => ["good", "bad", "good"]) ([] : Cache)
    "t" "positive" "good" (Or.inl rfl) (by rfl) (by simp)

/-- C3: the claim is right and the code is wrong (code bug). The consumer
writes the processed counters with plain SET of its batch-local totals, so
a prior counter value of 5 is overwritten with 1 after a one-sample batch
instead of being incremented to 6: earlier batches are erased, not
preserved. -/
theorem claim_C3_processed_counter_overwritten :
    redis_feature_consumer (fun _ => ["good"]) [("hello", "positive")]
        ([("positive_processed", RVal.num 5)] : Cache)
      = Except.ok ([("positive_processed", RVal.num 1),
          ("positive_wordcounts", RVal.zset [("good", 1)]),
          ("negative_processed", RVal.num 0)] : Cache) ∧
    findD ([("positive_processed", RVal.num 1),
          ("positive_wordcounts", RVal.zset [("good", 1)]),
          ("negative_processed", RVal.num 0)] : Cache) "positive_processed"
      = some (RVal.num 1) ∧
    (1 : Nat) ≠ 5 + 1 := by
  refine ⟨by rfl, by rfl, by decide⟩

/-- C5: the claim is right and the code is wrong (code bug). With no
cached label_fd, store_feature_scores does not surface a clean
PreconditionError: pickle.loads(None) raises TypeError, the except clause
catches it and only PRINTS "Requires frequency distributions to be
built.", and execution falls through to the unbound local
label_word_freqdist, crashing with UnboundLocalError (nameError here) —
the precondition failure is first silently recovered, then surfaced as an
unrelated error. -/
theorem claim_C5_missing_freqdist_crash :
    store_feature_scores ([] : Cache) = Except.error PyError.nameError := by
  rfl

/-- C6: half right, half a code bug. Before any store_best_features run,
get_best_words returns the absent sentinel None and not an error (for both
scores=False and scores=True). But once best_words IS stored, the call
raises TypeError — pickle.load is handed the key string instead of the
stored value — rather than returning the stored words. -/
theorem claim_C6_best_words_load :
    get_best_words false ([] : Cache) = Except.ok none ∧
    get_best_words true ([] : Cache) = Except.ok none ∧
    get_best_words false
        ([("best_words", RVal.blob (PyObjShape.best [("a", 1)]))] : Cache)
      = Except.error PyError.typeError ∧
    get_best_words true
        ([("best_words", RVal.blob (PyObjShape.best [("a", 1)]))] : Cache)
      = Except.error PyError.typeError := by
  exact ⟨rfl, rfl, rfl, rfl⟩

/-- C8: calling store_feature_counts while hasWordCounts() already holds —
the positive_wordcounts key exists — is a no-op: the cache comes back
identical, so every cached key keeps its value and zero writes happen. -/
theorem claim_C8_compute_once_guard (tok : String → List String) (c : Corpus)
    (samples chunksize : Nat) (cache : Cache)
    (h : "positive_wordcounts" ∈ keysC cache) :
    store_feature_counts tok c samples chunksize cache = Except.ok cache := by
  simp [store_feature_counts, h]

/-- Witness for C8 on a cache already holding word counts. -/
theorem claim_C8_compute_once_guard_witness :
    store_feature_counts (fun _ => []) ⟨["r"], ["s"]⟩ 2 10
        ([("positive_wordcounts", RVal.zset [("good", 1)])] : Cache)
      = Except.ok ([("positive_wordcounts", RVal.zset [("good", 1)])] : Cache) :=
  claim_C8_compute_once_guard (fun _ => []) ⟨["r"], ["s"]⟩ 2 10
    ([("positive_wordcounts", RVal.zset [("good", 1)])] : Cache) (by decide)

/-- C9 counterexample: the claim quantifies over every stored WordScores
map, but with the empty map stored and n = 1 the assert fires — the call
errors instead of persisting the empty sequence of length min(1, 0) = 0. -/
theorem claim_C9_counterexample :
    store_best_features 1
        ([("word_scores", RVal.blob (PyObjShape.scores []))] : Cache)
      = Except.error (PyError.assertionError "Word scores need to exist.") := by
  rfl

/-- C9 as amended: for every n and every NONEMPTY stored WordScores map,
store_best_features is a no-op when n = 0, and otherwise persists under
best_words a sequence of length min(n, |WordScores|) sorted by score
descending. (With an empty stored map the assert fires instead — see the
counterexample.) -/
theorem claim_C9_amended (n : Nat) (cache : Cache) (ws : List (String × Rat))
    (hws : findD cache "word_scores" = some (RVal.blob (PyObjShape.scores ws)))
    (hne : ws ≠ []) :
    (n = 0 → store_best_features n cache = Except.ok cache) ∧
    (n ≠ 0 → ∃ best : List (String × Rat),
      store_best_features n cache
        = Except.ok (dictInsert cache "best_words" (RVal.blob (PyObjShape.best best))) ∧
      best.length = min n ws.length ∧
      best.Pairwise (fun a b => b.2 ≤ a.2)) := by
  have hemp : ws.isEmpty = false := by
    cases ws with
    | nil => exact absurd rfl hne
    | cons a l => rfl
  constructor
  · intro h0
    subst h0
    rfl
  · intro hn
    refine ⟨(ws.mergeSort (fun a b => decide (b.2 ≤ a.2))).take n, ?_, ?_, ?_⟩
    · simp only [store_best_features, if_neg hn, pickle_load, hws, hemp,
        Bool.false_eq_true, if_false, pickle_store]
    · rw [List.length_take, List.length_mergeSort]
    · have htrans : ∀ a b c2 : String × Rat,
          decide (b.2 ≤ a.2) = true → decide (c2.2 ≤ b.2) = true →
          decide (c2.2 ≤ a.2) = true := by
        intro a b c2 h1 h2
        simp only [decide_eq_true_eq] at h1 h2 ⊢
        exact le_trans h2 h1
      have htot : ∀ a b : String × Rat,
          (decide (b.2 ≤ a.2) || decide (a.2 ≤ b.2)) = true := by
        intro a b
        simp only [Bool.or_eq_true, decide_eq_true_eq]
        exact le_total b.2 a.2
      have hs := List.sorted_mergeSort htrans htot ws
      have hsub := List.Pairwise.sublist
        (List.take_sublist n (ws.mergeSort (fun a b => decide (b.2 ≤ a.2)))) hs
      exact hsub.imp (fun h => of_decide_eq_true h)

/-- Witness for the amended C9: a two-entry score map with n = 1. -/
theorem claim_C9_amended_witness :
    ((1 : Nat) = 0 → store_best_features 1
        ([("word_scores", RVal.blob (PyObjShape.scores [("a", 1), ("b", 2)]))] : Cache)
      = Except.ok ([("word_scores", RVal.blob (PyObjShape.scores [("a", 1), ("b", 2)]))] : Cache)) ∧
    ((1 : Nat) ≠ 0 → ∃ best : List (String × Rat),
      store_best_features 1
          ([("word_scores", RVal.blob (PyObjShape.scores [("a", 1), ("b", 2)]))] : Cache)
        = Except.ok (dictInsert
            ([("word_scores", RVal.blob (PyObjShape.scores [("a", 1), ("b", 2)]))] : Cache)
            "best_words" (RVal.blob (PyObjShape.best best))) ∧
      best.length = min 1 ([("a", (1 : Rat)), ("b", 2)] : List (String × Rat)).length ∧
      best.Pairwise (fun a b => b.2 ≤ a.2)) :=
  claim_C9_amended 1
    ([("word_scores", RVal.blob (PyObjShape.scores [("a", 1), ("b", 2)]))] : Cache)
    [("a", 1), ("b", 2)] rfl (by decide)

theorem findD_eq_none_of_not_mem {α : Type} (l : List (String × α)) (k : String)
    (h : k ∉ l.map Prod.fst) : findD l k = none := by
  induction l with
  | nil => rfl
  | cons p rest ih =>
    rw [List.map_cons, List.mem_cons] at h
    push_neg at h
    simp [findD, Ne.symm h.1, ih h.2]

theorem mem_keys_dictInsert {α : Type} (m : List (String × α)) (k : String) (v : α)
    (x : String) :
    x ∈ (dictInsert m k v).map Prod.fst ↔ x ∈ m.map Prod.fst ∨ x = k := by
  induction m with
  | nil => simp [dictInsert]
  | cons p rest ih =>
    by_cases hk : p.1 = k
    · subst hk
      simp [dictInsert, List.mem_cons]
      tauto
    · simp [dictInsert, hk, List.mem_cons, ih]
      tauto

theorem nodup_keys_dictInsert {α : Type} (m : List (String × α)) (k : String) (v : α)
    (h : (m.map Prod.fst).Nodup) : ((dictInsert m k v).map Prod.fst).Nodup := by
  induction m with
  | nil => simp [dictInsert]
  | cons p rest ih =>
    rw [List.map_cons, List.nodup_cons] at h
    by_cases hk : p.1 = k
    · subst hk
      have hd : dictInsert (p :: rest) p.1 v = (p.1, v) :: rest := by
        simp [dictInsert]
      rw [hd, List.map_cons]
      exact List.nodup_cons.mpr ⟨h.1, h.2⟩
    · simp only [dictInsert, if_neg hk, List.map_cons, List.nodup_cons]
      refine ⟨?_, ih h.2⟩
      rw [mem_keys_dictInsert]
      exact fun hor => hor.elim h.1 hk

theorem nodup_keys_foldl_pass (score : String → Nat → Rat) (dist : List (String × Nat)) :
    ∀ acc : List (String × Rat), (acc.map Prod.fst).Nodup →
    ((dist.foldl (fun ws p => dictInsert ws p.1 (score p.1 p.2)) acc).map Prod.fst).Nodup := by
  induction dist with
  | nil => intro acc h; exact h
  | cons p rest ih =>
    intro acc h
    rw [List.foldl_cons]
    exact ih _ (nodup_keys_dictInsert acc p.1 _ h)

theorem findD_foldl_pass (score : String → Nat → Rat) (dist : List (String × Nat)) :
    ∀ acc : List (String × Rat), (dist.map Prod.fst).Nodup → ∀ w,
    findD (dist.foldl (fun ws p => dictInsert ws p.1 (score p.1 p.2)) acc) w
      = match findD dist w with
        | some f => some (score w f)
        | none => findD acc w := by
  induction dist with
  | nil => intro acc _ w; rfl
  | cons p rest ih =>
    intro acc hnd w
    rw [List.map_cons, List.nodup_cons] at hnd
    rw [List.foldl_cons, ih _ hnd.2 w]
    by_cases hw : p.1 = w
    · subst hw
      rw [findD_eq_none_of_not_mem rest p.1 hnd.1]
      simp [findD, findD_dictInsert_self]
    · simp [findD, hw, findD_dictInsert_ne acc p.1 w _ hw]

/-- C4 as amended: store_feature_scores persists a map in which every word
of either distribution has exactly one score (the key list is
duplicate-free and exactly covers both distributions), but the score is
NOT built from the own frequency of each label: both per-label chi-squares
receive the frequency of the word in the LAST label of the conditions()
iteration — conditions() sorts the labels, so positive comes last and a
word in both distributions keeps the score computed from its
positive-label frequency, as pair_score records. The claimed per-label
formula claimed_word_score differs — see the counterexample. -/
theorem claim_C4_amended (cache : Cache) (posD negD : List (String × Nat))
    (hfd : findD cache "label_fd"
      = some (RVal.blob (PyObjShape.cfd [("positive", posD), ("negative", negD)])))
    (hpos : (posD.map Prod.fst).Nodup) (hneg : (negD.map Prod.fst).Nodup) :
    store_feature_scores cache = Except.ok (dictInsert cache "word_scores"
      (RVal.blob (PyObjShape.scores
        (word_scores_of [("positive", posD), ("negative", negD)])))) ∧
    ((word_scores_of [("positive", posD), ("negative", negD)]).map Prod.fst).Nodup ∧
    ∀ w, findD (word_scores_of [("positive", posD), ("negative", negD)]) w
      = match findD posD w with
        | some f => some (pair_score [("positive", posD), ("negative", negD)] w f)
        | none =>
          match findD negD w with
          | some f => some (pair_score [("positive", posD), ("negative", negD)] w f)
          | none => none := by
  have hcond : conditions [("positive", posD), ("negative", negD)]
      = ["negative", "positive"] := by
    norm_num +decide [conditions, sorted_keys, insert_sorted]
  have hcneg : condLookup [("positive", posD), ("negative", negD)] "negative" = negD := rfl
  have hcpos : condLookup [("positive", posD), ("negative", negD)] "positive" = posD := rfl
  refine ⟨?_, ?_, ?_⟩
  · simp only [store_feature_scores, pickle_load, hfd, pickle_store]
  · simp only [word_scores_of, hcond, List.foldl_cons, List.foldl_nil, hcneg, hcpos]
    exact nodup_keys_foldl_pass _ posD _
      (nodup_keys_foldl_pass _ negD [] (by simp))
  · intro w
    simp only [word_scores_of, hcond, List.foldl_cons, List.foldl_nil, hcneg, hcpos]
    rw [findD_foldl_pass _ posD _ hpos w, findD_foldl_pass _ negD _ hneg w]
    rfl

/-- Witness for the amended C4: one word per label, label_fd cached. -/
theorem claim_C4_amended_witness :
    store_feature_scores
        ([("label_fd", RVal.blob (PyObjShape.cfd
          [("positive", [("w", 2)]), ("negative", [("y", 1)])]))] : Cache)
      = Except.ok (dictInsert
          ([("label_fd", RVal.blob (PyObjShape.cfd
            [("positive", [("w", 2)]), ("negative", [("y", 1)])]))] : Cache)
          "word_scores" (RVal.blob (PyObjShape.scores
            (word_scores_of [("positive", [("w", 2)]), ("negative", [("y", 1)])])))) ∧
    ((word_scores_of
        [("positive", [("w", 2)]), ("negative", [("y", 1)])]).map Prod.fst).Nodup ∧
    ∀ w, findD (word_scores_of [("positive", [("w", 2)]), ("negative", [("y", 1)])]) w
      = match findD [("w", 2)] w with
        | some f => some (pair_score
            [("positive", [("w", 2)]), ("negative", [("y", 1)])] w f)
        | none =>
          match findD [("y", 1)] w with
          | some f => some (pair_score
              [("positive", [("w", 2)]), ("negative", [("y", 1)])] w f)
          | none => none :=
  claim_C4_amended
    ([("label_fd", RVal.blob (PyObjShape.cfd
      [("positive", [("w", 2)]), ("negative", [("y", 1)])]))] : Cache)
    [("w", 2)] [("y", 1)] rfl (by decide) (by decide)

/-- C4 counterexample: with positive counts w:2, x:1 and negative counts
w:1, y:1, the stored score of "w" is 85/36 — conditions() iterates the
sorted labels negative then positive, so both chi-squares were fed the
frequency 2 that "w" has in the last-iterated (positive) label — while
the claimed formula (each label its own frequency) gives 295/72. -/
theorem claim_C4_counterexample :
    findD (word_scores_of [("positive", [("w", 2), ("x", 1)]),
        ("negative", [("w", 1), ("y", 1)])]) "w" = some (85 / 36 : Rat) ∧
    claimed_word_score [("w", 2), ("x", 1)] [("w", 1), ("y", 1)] "w"
      = (295 / 72 : Rat) ∧
    (85 / 36 : Rat) ≠ (295 / 72 : Rat) := by
  refine ⟨?_, ?_, by norm_num⟩
  · norm_num +decide [word_scores_of, conditions, sorted_keys, insert_sorted, pair_score,
      chi_sq, fdFreq, fdN, condLookup, findD, dictInsert, List.foldl_cons, List.foldl_nil]
  · norm_num +decide [claimed_word_score, chi_sq, fdFreq, fdN, findD]

end Synt
